import Mathlib

/-!
Verification of the image-shop editor's session/history state machine.

The definitions below are a shallow embedding of the state management code of
the editor (the `App` component and its helpers): image blobs are abstracted
as natural numbers standing for distinct `File` objects, the per-image record
mirrors the `ImageState` type, and every operation mirrors the corresponding
handler body, including its guards and functional-update structure.
-/

/-- Image blobs (`File` objects) are abstract values; distinct numbers stand
for distinct object identities. -/
abbrev Blob := Nat

/-- Mirrors the `ImageState` record of the source: per-image edit history with
a cursor, plus transient processing/error state. -/
structure ImageState where
  id : String
  history : List Blob
  historyIndex : Nat
  isProcessing : Bool
  error : Option String
  name : String
deriving DecidableEq, Repr

/-- Functional update of the element at position `i` of a list, leaving the
list unchanged when `i` is out of range.  This is the shape of both mutation
patterns in the source: `prev.map((img, idx) => idx === i ? f(img) : img)`
and the copy-then-assign `newList[index] = f(newList[index])` pattern guarded
by `if (targetImage)`. -/
def updateAt (i : Nat) (f : ImageState → ImageState) : List ImageState → List ImageState
  | [] => []
  | x :: xs =>
    match i with
    | 0 => f x :: xs
    | n + 1 => x :: updateAt n f xs

/-- The history-append step performed on the target record by
`addImageToHistory` (and by the success branch of `processImage`):
`newHistory = history.slice(0, historyIndex + 1)`, push the new blob, and set
`historyIndex = newHistory.length - 1`. -/
def appendRecord (b : Blob) (r : ImageState) : ImageState :=
  let newHistory := r.history.take (r.historyIndex + 1) ++ [b]
  { r with history := newHistory, historyIndex := newHistory.length - 1 }

/-- The effect of `handleUndo` on the target record: guarded by
`canUndo` (`historyIndex > 0`), it decrements `historyIndex`; at the boundary
nothing happens. -/
def undoRecord (r : ImageState) : ImageState :=
  if 0 < r.historyIndex then { r with historyIndex := r.historyIndex - 1 } else r

/-- The effect of `handleRedo` on the target record: guarded by
`canRedo` (`historyIndex < history.length - 1`), it increments
`historyIndex`; at the boundary nothing happens. -/
def redoRecord (r : ImageState) : ImageState :=
  if r.historyIndex < r.history.length - 1 then
    { r with historyIndex := r.historyIndex + 1 }
  else r

/-- A freshly created record, as built by `handleSingleImageUpload` /
`handleMultipleImageUpload`: `history = [file]`, `historyIndex = 0`,
`isProcessing = false`, `error = null`. -/
def freshRecord (id name : String) (b : Blob) : ImageState :=
  { id := id, history := [b], historyIndex := 0, isProcessing := false,
    error := none, name := name }

/-- One user-level history operation on a record. -/
inductive HistOp where
  | append (b : Blob)
  | undo
  | redo
deriving DecidableEq, Repr

/-- Apply one history operation to a record (the per-record effect of
`addImageToHistory` / `handleUndo` / `handleRedo`). -/
def applyOp (op : HistOp) (r : ImageState) : ImageState :=
  match op with
  | .append b => appendRecord b r
  | .undo => undoRecord r
  | .redo => redoRecord r

/-- Apply a sequence of history operations, first operation first. -/
def applyOps (ops : List HistOp) (r : ImageState) : ImageState :=
  ops.foldl (fun r op => applyOp op r) r

/-- The history invariant: the cursor is a valid index and the first history
entry is the original upload blob. -/
def HistInv (b0 : Blob) (r : ImageState) : Prop :=
  r.historyIndex < r.history.length ∧ r.history.head? = some b0

/-- The full component state of the `App` component relevant to session,
history, error and viewport behaviour.  Field names follow the `useState`
variables of the source; `globalError` is the source's shared `error` state
(distinct from each record's `error` field). -/
structure AppState where
  imageList : List ImageState
  currentImageIndex : Nat
  prompt : String
  isLoading : Bool
  globalError : Option String
  editHotspot : Option (Int × Int)
  displayHotspot : Option (ℚ × ℚ)
  isComparing : Bool
  sliderPosition : ℚ
  scale : ℚ
  translate : ℚ × ℚ
  crop : Option Unit
  completedCrop : Option Unit
deriving DecidableEq

/-- Derived state `currentImageState = imageList[currentImageIndex] ?? null`. -/
def currentRecord (s : AppState) : Option ImageState :=
  s.imageList.get? s.currentImageIndex

/-- Derived state
`currentImage = currentImageState?.history[currentImageState.historyIndex] ?? null`. -/
def currentBlob (s : AppState) : Option Blob :=
  match currentRecord s with
  | some r => r.history.get? r.historyIndex
  | none => none

/-- Derived guard `canUndo = currentImageState && currentImageState.historyIndex > 0`. -/
def canUndoA (s : AppState) : Bool :=
  match currentRecord s with
  | some r => decide (0 < r.historyIndex)
  | none => false

/-- Derived guard `canRedo = currentImageState && historyIndex < history.length - 1`. -/
def canRedoA (s : AppState) : Bool :=
  match currentRecord s with
  | some r => decide (r.historyIndex < r.history.length - 1)
  | none => false

/-- Mirrors `addImageToHistory(newImageFile, index)`: functional update of the record
at `index` with the history-append step (no-op when the index is out of
range, mirroring the `if (targetImage)` guard). -/
def addImageToHistory (b : Blob) (i : Nat) (l : List ImageState) :
    List ImageState :=
  updateAt i (appendRecord b) l

/-- Mirrors `handleUndo`: guarded by `canUndo`; decrements `historyIndex` of the
record at `currentImageIndex` and touches nothing else. -/
def handleUndoA (s : AppState) : AppState :=
  if canUndoA s then
    let f := fun img => { img with historyIndex := img.historyIndex - 1 }
    { s with imageList := updateAt s.currentImageIndex f s.imageList }
  else s

/-- Mirrors `handleRedo`: guarded by `canRedo`; increments `historyIndex` of the
record at `currentImageIndex` and touches nothing else. -/
def handleRedoA (s : AppState) : AppState :=
  if canRedoA s then
    let f := fun img => { img with historyIndex := img.historyIndex + 1 }
    { s with imageList := updateAt s.currentImageIndex f s.imageList }
  else s

/-- All `App` state outside the image collection agrees between two states. -/
def agreesOutsideImages (a b : AppState) : Prop :=
  a.currentImageIndex = b.currentImageIndex ∧ a.prompt = b.prompt ∧
  a.isLoading = b.isLoading ∧ a.globalError = b.globalError ∧
  a.editHotspot = b.editHotspot ∧ a.displayHotspot = b.displayHotspot ∧
  a.isComparing = b.isComparing ∧ a.sliderPosition = b.sliderPosition ∧
  a.scale = b.scale ∧ a.translate = b.translate ∧ a.crop = b.crop ∧
  a.completedCrop = b.completedCrop

/-- First phase of `processImage`: mark the target record
`isProcessing = true, error = null`. -/
def markProcessing (i : Nat) (l : List ImageState) : List ImageState :=
  updateAt i (fun img => { img with isProcessing := true, error := none }) l

/-- Success phase of `processImage`: append the result blob to the target
record's history (same computation as `addImageToHistory`) and clear
`isProcessing`. -/
def commitSuccess (b : Blob) (i : Nat) (l : List ImageState) : List ImageState :=
  updateAt i (fun img =>
    let newHistory := img.history.take (img.historyIndex + 1) ++ [b]
    { img with history := newHistory, historyIndex := newHistory.length - 1,
               isProcessing := false }) l

/-- Catch phase of `processImage`: record the failure message on the target
record and clear `isProcessing`. -/
def commitFailure (msg : String) (i : Nat) (l : List ImageState) :
    List ImageState :=
  updateAt i (fun img => { img with error := some msg, isProcessing := false }) l

/-- Mirrors `processImage`: marks the record processing, then commits either the
service result blob or the failure message.  The external service call is
abstracted as its outcome `res`. -/
def processImage (res : Except String Blob) (l : List ImageState) (i : Nat) :
    List ImageState :=
  match res with
  | .ok b => commitSuccess b i (markProcessing i l)
  | .error msg => commitFailure msg i (markProcessing i l)

/-- Mirrors `handleApplyToAll`: sequential loop over all indices of the list, one
`processImage` (hence exactly one external service call) per index, in index
order.  The second component records the sequence of service calls made. -/
def handleApplyToAll (svc : Nat → Except String Blob) (l : List ImageState) :
    List ImageState × List Nat :=
  (List.range l.length).foldl
    (fun acc i => (processImage (svc i) acc.1 i, acc.2 ++ [i])) (l, [])

/-- Net effect of one `processImage` run on its target record. -/
def recordStep (res : Except String Blob) (r : ImageState) : ImageState :=
  match res with
  | .ok b =>
    let newHistory := r.history.take (r.historyIndex + 1) ++ [b]
    { r with history := newHistory, historyIndex := newHistory.length - 1,
             isProcessing := false, error := none }
  | .error msg => { r with isProcessing := false, error := some msg }

/-- The image-list part of the batch loop, for proofs. -/
def batchAux (svc : Nat → Except String Blob) (n : Nat) (l : List ImageState) :
    List ImageState :=
  (List.range n).foldl (fun acc i => processImage (svc i) acc i) l

/-- The JS guard `!prompt.trim()`: true exactly when the prompt contains no
non-whitespace character (its trim is empty). -/
def isBlank (s : String) : Bool :=
  s.toList.all (fun c => c.isWhitespace)

/-- Mirrors `handleGenerate` (the single-image retouch dispatch): guards on a current
image, a non-empty prompt and a selected hotspot; on service success appends
the result blob to the active record's history (via `addImageToHistory`,
which also clears the crop selection) and clears hotspots and prompt; on
service failure stores the message in the shared `error` state
(`globalError`) — the record itself is not touched; the `finally` clause
clears `isLoading`.  The external service call is abstracted as its
outcome `res`. -/
def handleGenerate (res : Except String Blob) (s : AppState) : AppState :=
  match currentBlob s with
  | none => s
  | some _ =>
    if isBlank s.prompt then
      { s with globalError := some ("Please enter a description for your edit.") }
    else
      match s.editHotspot with
      | none =>
        { s with globalError := some ("Please click on the image to select an area to edit.") }
      | some _ =>
        match res with
        | .ok b =>
          { s with imageList := addImageToHistory b s.currentImageIndex s.imageList,
                   crop := none, completedCrop := none,
                   editHotspot := none, displayHotspot := none,
                   prompt := "", globalError := none, isLoading := false }
        | .error msg =>
          { s with globalError := some ("Failed to generate the image. " ++ msg),
                   isLoading := false }

/-- A state in which a single-image edit is ready to fire: a current blob
exists, the prompt is non-empty after trimming, and a hotspot is selected. -/
def generateGuardsPass (s : AppState) : Prop :=
  (currentBlob s).isSome = true ∧ isBlank s.prompt = false ∧
  s.editHotspot.isSome = true

/-- Mirrors `onSelect={setCurrentImageIndex}`: selecting an image from the filmstrip
stores the given index directly, with no bounds check of any kind. -/
def setCurrentImageIndexA (i : Nat) (s : AppState) : AppState :=
  { s with currentImageIndex := i }

/-- Keyboard `ArrowRight` navigation: only in batch mode, advances the index
modulo the list length. -/
def keyboardArrowRight (s : AppState) : AppState :=
  if s.imageList.length ≤ 1 then s
  else { s with currentImageIndex :=
          (s.currentImageIndex + 1) % s.imageList.length }

/-- Keyboard `ArrowLeft` navigation: only in batch mode, steps the index
back, wrapping modulo the list length
(`(i - 1 + imageList.length) % imageList.length`). -/
def keyboardArrowLeft (s : AppState) : AppState :=
  if s.imageList.length ≤ 1 then s
  else { s with currentImageIndex :=
          (s.currentImageIndex + s.imageList.length - 1) % s.imageList.length }

/-- Scale clamping used by both zoom paths:
`Math.max(0.2, Math.min(newScale, 5))`. -/
def clampScale (x : ℚ) : ℚ := max (2 / 10) (min x 5)

/-- Mirrors `handleZoom`: button zoom about the viewport centre with factor 1.2;
returns the new `(scale, translate)`. -/
def handleZoom (zoomIn : Bool) (center : ℚ × ℚ) (scale : ℚ)
    (translate : ℚ × ℚ) : ℚ × (ℚ × ℚ) :=
  let oldScale := scale
  let newScale := if zoomIn then oldScale * (12 / 10) else oldScale / (12 / 10)
  let clampedScale := clampScale newScale
  (clampedScale,
   (center.1 - (center.1 - translate.1) * (clampedScale / oldScale),
    center.2 - (center.2 - translate.2) * (clampedScale / oldScale)))

/-- Mirrors `handleWheel`: wheel zoom about the pointer with factor 1.1, disabled on
the crop/resize tabs and while comparing; returns the new
`(scale, translate)`. -/
def handleWheel (tab : String) (comparing deltaYNeg : Bool) (mouse : ℚ × ℚ)
    (scale : ℚ) (translate : ℚ × ℚ) : ℚ × (ℚ × ℚ) :=
  if tab = "crop" ∨ tab = "resize" ∨ comparing = true then (scale, translate)
  else
    let oldScale := scale
    let newScale := if deltaYNeg then oldScale * (11 / 10) else oldScale / (11 / 10)
    let clampedScale := clampScale newScale
    (clampedScale,
     (mouse.1 - (mouse.1 - translate.1) * (clampedScale / oldScale),
      mouse.2 - (mouse.2 - translate.2) * (clampedScale / oldScale)))

/-- The hotspot coordinate mapper from `handleMouseDown`: given the natural
pixel size of the image, the on-screen rendered size of the `img` element,
and a click position relative to that element, account for `object-contain`
letterboxing (uniform fit, centred), reject clicks falling in the letterbox
bars, and map the click to natural-pixel coordinates with `Math.round`. -/
def computeHotspot (naturalW naturalH renderedW renderedH clickX clickY : ℚ) :
    Option (ℤ × ℤ) :=
  if renderedW = 0 ∨ renderedH = 0 then none
  else
    let naturalAR := naturalW / naturalH
    let renderedAR := renderedW / renderedH
    let visibleW := if naturalAR > renderedAR then renderedW
                    else renderedH * naturalAR
    let visibleH := if naturalAR > renderedAR then renderedW / naturalAR
                    else renderedH
    let offX := if naturalAR > renderedAR then 0
                else (renderedW - renderedH * naturalAR) / 2
    let offY := if naturalAR > renderedAR then (renderedH - renderedW / naturalAR) / 2
                else 0
    let cx := clickX - offX
    let cy := clickY - offY
    if cx < 0 ∨ cx > visibleW ∨ cy < 0 ∨ cy > visibleH then none
    else
      let sf := visibleW / naturalW
      some (round (cx / sf), round (cy / sf))

/-- The app-level effect of a successful edit commit:
`addImageToHistory(newImageFile, currentImageIndex)`, which also clears the
crop selection. -/
def commitEditA (b : Blob) (s : AppState) : AppState :=
  { s with imageList := addImageToHistory b s.currentImageIndex s.imageList,
           crop := none, completedCrop := none }

/-- The `useEffect` keyed on `currentImage` in the shipped `App`: after a
render in which the displayed blob differs from the previous render's, it
clears the hotspots, compare mode and crop selection and calls `resetView`
(`scale = 1`, `translate = (0, 0)`). -/
def imageSwapEffect (prevBlob : Option Blob) (s : AppState) : AppState :=
  if currentBlob s = prevBlob then s
  else { s with editHotspot := none, displayHotspot := none,
                isComparing := false, crop := none, completedCrop := none,
                scale := 1, translate := (0, 0) }

/-- The interaction/viewport state the effect resets. -/
def interactionIsReset (s : AppState) : Prop :=
  s.scale = 1 ∧ s.translate = (0, 0) ∧ s.editHotspot = none ∧
  s.displayHotspot = none ∧ s.isComparing = false ∧ s.crop = none ∧
  s.completedCrop = none

theorem histInv_applyOp (op : HistOp) (r : ImageState) (b0 : Blob)
    (h : HistInv b0 r) : HistInv b0 (applyOp op r) := by
  obtain ⟨hidx, hhead⟩ := h
  have hne : r.history ≠ [] := by
    intro hempty
    rw [hempty] at hidx
    exact Nat.not_lt_zero _ hidx
  cases op with
  | append b =>
    constructor
    · simp [applyOp, appendRecord]
    · have htake : (r.history.take (r.historyIndex + 1)).head? = some b0 := by
        cases hh : r.history with
        | nil => exact absurd hh hne
        | cons x xs =>
          rw [hh] at hhead
          simp at hhead
          simp [List.take_succ_cons, hh, hhead]
      have htne : r.history.take (r.historyIndex + 1) ≠ [] := by
        intro hempty
        rw [hempty] at htake
        simp at htake
      simp only [applyOp, appendRecord]
      rw [List.head?_append_of_ne_nil _ htne]
      exact htake
  | undo =>
    simp only [applyOp, undoRecord]
    split
    · exact ⟨Nat.lt_of_le_of_lt (Nat.sub_le _ _) hidx, hhead⟩
    · exact ⟨hidx, hhead⟩
  | redo =>
    simp only [applyOp, redoRecord]
    split
    · rename_i hlt
      refine ⟨?_, hhead⟩
      dsimp only
      omega
    · exact ⟨hidx, hhead⟩

theorem histInv_applyOps (ops : List HistOp) (r : ImageState) (b0 : Blob)
    (h : HistInv b0 r) : HistInv b0 (applyOps ops r) := by
  induction ops generalizing r with
  | nil => exact h
  | cons op ops ih =>
    simp only [applyOps, List.foldl_cons]
    exact ih _ (histInv_applyOp op r b0 h)

/-- Claim C1: For every sequence of append-version / undo / redo operations
starting from a freshly created record, the cursor `historyIndex` stays
within `[0, history.length - 1]` (the history never becomes empty) and the
blob at `history[0]` is still the original upload: it is never altered or
removed. -/
theorem history_invariant_all_sequences (ops : List HistOp) (id name : String)
    (b0 : Blob) :
    1 ≤ (applyOps ops (freshRecord id name b0)).history.length ∧
    (applyOps ops (freshRecord id name b0)).historyIndex ≤
      (applyOps ops (freshRecord id name b0)).history.length - 1 ∧
    (applyOps ops (freshRecord id name b0)).history.head? = some b0 := by
  have h0 : HistInv b0 (freshRecord id name b0) := by
    constructor <;> simp [freshRecord, HistInv]
  obtain ⟨hidx, hhead⟩ := histInv_applyOps ops (freshRecord id name b0) b0 h0
  exact ⟨by omega, by omega, hhead⟩

theorem updateAt_length (i : Nat) (f : ImageState → ImageState)
    (l : List ImageState) : (updateAt i f l).length = l.length := by
  induction l generalizing i with
  | nil => simp [updateAt]
  | cons x xs ih =>
    cases i with
    | zero => rfl
    | succ n => simp [updateAt, ih]

theorem updateAt_get?_self (i : Nat) (f : ImageState → ImageState)
    (l : List ImageState) : (updateAt i f l).get? i = (l.get? i).map f := by
  induction l generalizing i with
  | nil => simp [updateAt]
  | cons x xs ih =>
    cases i with
    | zero => rfl
    | succ n => simpa [updateAt] using ih n

theorem updateAt_get?_ne (i j : Nat) (f : ImageState → ImageState)
    (l : List ImageState) (h : j ≠ i) :
    (updateAt i f l).get? j = l.get? j := by
  induction l generalizing i j with
  | nil => simp [updateAt]
  | cons x xs ih =>
    cases i with
    | zero =>
      cases j with
      | zero => exact absurd rfl h
      | succ m => rfl
    | succ n =>
      cases j with
      | zero => rfl
      | succ m => simpa [updateAt] using ih n m (by omega)

theorem agreesOutsideImages_refl (a : AppState) : agreesOutsideImages a a := by
  repeat' constructor

/-- Claim C3: Appending with a live redo branch (`historyIndex <
history.length - 1`) truncates the history to the prefix `[0..historyIndex]`,
pushes the new blob, and sets the cursor to the new last index; concretely,
from history `[a, b, c]` at index 2, undo yields index 1, and appending `d`
yields history `[a, b, d]` at index 2. -/
theorem append_truncates_redo_branch :
    (∀ (r : ImageState) (b : Blob), r.historyIndex < r.history.length - 1 →
      (appendRecord b r).history = r.history.take (r.historyIndex + 1) ++ [b] ∧
      (appendRecord b r).historyIndex = r.historyIndex + 1 ∧
      (appendRecord b r).historyIndex = (appendRecord b r).history.length - 1) ∧
    applyOps [HistOp.undo, HistOp.append 13]
        { id := "img", history := [10, 11, 12], historyIndex := 2,
          isProcessing := false, error := none, name := "img" } =
      { id := "img", history := [10, 11, 13], historyIndex := 2,
        isProcessing := false, error := none, name := "img" } := by
  constructor
  · intro r b h
    refine ⟨rfl, ?_, ?_⟩ <;> simp [appendRecord] <;> omega
  · decide

theorem append_truncates_redo_branch_witness :
    ((⟨"x", [0, 1, 2], 1, false, none, "x"⟩ : ImageState).historyIndex <
      (⟨"x", [0, 1, 2], 1, false, none, "x"⟩ : ImageState).history.length - 1) ∧
    (appendRecord 5 ⟨"x", [0, 1, 2], 1, false, none, "x"⟩).history =
      ([0, 1, 2] : List Blob).take 2 ++ [5] := by
  refine ⟨by decide, ?_⟩
  exact (append_truncates_redo_branch.1 ⟨"x", [0, 1, 2], 1, false, none, "x"⟩ 5
    (by decide)).1

/-- Claim C4: Undo at cursor 0 and redo at the last index are no-ops that leave
the entire `App` state unchanged (the `NoOpError` boundary case, recovered
locally); otherwise undo decrements and redo increments the active record's
`historyIndex` by exactly one, leaving every other record and every other
piece of state untouched. -/
theorem undo_redo_boundary_and_step (s : AppState) (r : ImageState)
    (hr : currentRecord s = some r) :
    (r.historyIndex = 0 → handleUndoA s = s) ∧
    (r.historyIndex = r.history.length - 1 → handleRedoA s = s) ∧
    (0 < r.historyIndex →
      currentRecord (handleUndoA s) =
        some { r with historyIndex := r.historyIndex - 1 } ∧
      (∀ j, j ≠ s.currentImageIndex →
        (handleUndoA s).imageList.get? j = s.imageList.get? j) ∧
      agreesOutsideImages (handleUndoA s) s) ∧
    (r.historyIndex < r.history.length - 1 →
      currentRecord (handleRedoA s) =
        some { r with historyIndex := r.historyIndex + 1 } ∧
      (∀ j, j ≠ s.currentImageIndex →
        (handleRedoA s).imageList.get? j = s.imageList.get? j) ∧
      agreesOutsideImages (handleRedoA s) s) := by
  refine ⟨?_, ?_, ?_, ?_⟩
  · intro h0
    simp [handleUndoA, canUndoA, hr, h0]
  · intro hlast
    simp [handleRedoA, canRedoA, hr, hlast]
  · intro hpos
    have hcan : canUndoA s = true := by simp [canUndoA, hr, hpos]
    have hr' : s.imageList.get? s.currentImageIndex = some r := hr
    refine ⟨?_, ?_, ?_⟩
    · have hidx : (handleUndoA s).currentImageIndex = s.currentImageIndex := by
        simp [handleUndoA, hcan]
      have hs' : (handleUndoA s).imageList = updateAt s.currentImageIndex
          (fun img => { img with historyIndex := img.historyIndex - 1 })
          s.imageList := by
        simp [handleUndoA, hcan]
      unfold currentRecord
      rw [hidx, hs', updateAt_get?_self, hr']
      rfl
    · intro j hj
      simp only [handleUndoA, hcan, if_true]
      exact updateAt_get?_ne _ _ _ _ hj
    · simp [handleUndoA, hcan, agreesOutsideImages]
  · intro hlt
    have hcan : canRedoA s = true := by simp [canRedoA, hr, hlt]
    have hr' : s.imageList.get? s.currentImageIndex = some r := hr
    refine ⟨?_, ?_, ?_⟩
    · have hidx : (handleRedoA s).currentImageIndex = s.currentImageIndex := by
        simp [handleRedoA, hcan]
      have hs' : (handleRedoA s).imageList = updateAt s.currentImageIndex
          (fun img => { img with historyIndex := img.historyIndex + 1 })
          s.imageList := by
        simp [handleRedoA, hcan]
      unfold currentRecord
      rw [hidx, hs', updateAt_get?_self, hr']
      rfl
    · intro j hj
      simp only [handleRedoA, hcan, if_true]
      exact updateAt_get?_ne _ _ _ _ hj
    · simp [handleRedoA, hcan, agreesOutsideImages]

theorem updateAt_comp (i : Nat) (f g : ImageState → ImageState)
    (l : List ImageState) :
    updateAt i g (updateAt i f l) = updateAt i (fun x => g (f x)) l := by
  induction l generalizing i with
  | nil => simp [updateAt]
  | cons x xs ih =>
    cases i with
    | zero => simp [updateAt]
    | succ n => simp [updateAt, ih]

theorem processImage_eq_updateAt (res : Except String Blob)
    (l : List ImageState) (i : Nat) :
    processImage res l i = updateAt i (recordStep res) l := by
  cases res with
  | ok b =>
    simp only [processImage, commitSuccess, markProcessing, updateAt_comp]
    rfl
  | error msg =>
    simp only [processImage, commitFailure, markProcessing, updateAt_comp]
    rfl

theorem batchAux_succ (svc : Nat → Except String Blob) (n : Nat)
    (l : List ImageState) :
    batchAux svc (n + 1) l = processImage (svc n) (batchAux svc n l) n := by
  simp [batchAux, List.range_succ]

theorem batchAux_get? (svc : Nat → Except String Blob) (n : Nat)
    (l : List ImageState) (i : Nat) :
    (batchAux svc n l).get? i =
      if i < n then (l.get? i).map (recordStep (svc i)) else l.get? i := by
  induction n with
  | zero => simp [batchAux]
  | succ n ih =>
    rw [batchAux_succ, processImage_eq_updateAt]
    by_cases hi : i = n
    · subst hi
      rw [updateAt_get?_self, ih]
      simp [Nat.lt_irrefl]
    · rw [updateAt_get?_ne _ _ _ _ hi, ih]
      have h2 : i < n + 1 ↔ i < n := by omega
      simp only [h2]

theorem handleApplyToAll_eq (svc : Nat → Except String Blob)
    (l : List ImageState) :
    handleApplyToAll svc l = (batchAux svc l.length l, List.range l.length) := by
  have key : ∀ (J : List Nat) (l0 : List ImageState) (t : List Nat),
      J.foldl (fun acc i => (processImage (svc i) acc.1 i, acc.2 ++ [i])) (l0, t) =
        (J.foldl (fun acc i => processImage (svc i) acc i) l0, t ++ J) := by
    intro J
    induction J with
    | nil => intro l0 t; simp
    | cons j J ih =>
      intro l0 t
      simp only [List.foldl_cons, ih]
      simp
  simpa [handleApplyToAll, batchAux] using key (List.range l.length) l []

/-- Claim C2: A batch apply-to-all run over `N` loaded images in which exactly
the edit call for image `k` fails: afterwards, every image except `k` has
exactly one additional history entry with `error = null` and
`isProcessing = false`; image `k` has its history unchanged and a non-null
`error`; and exactly `N` external edit-service calls are made, one per
image, in index order. -/
theorem applyToAll_isolated_failure (l : List ImageState)
    (svc : Nat → Except String Blob) (k : Nat) (msg : String)
    (hend : ∀ r ∈ l, r.historyIndex + 1 = r.history.length)
    (hk : k < l.length) (hfail : svc k = .error msg)
    (hsucc : ∀ i, i < l.length → i ≠ k → ∃ b, svc i = .ok b) :
    (handleApplyToAll svc l).2 = List.range l.length ∧
    (handleApplyToAll svc l).1.length = l.length ∧
    (∀ i r, i ≠ k → l.get? i = some r →
      ∃ b, (handleApplyToAll svc l).1.get? i =
        some { r with history := r.history ++ [b],
                      historyIndex := r.history.length,
                      isProcessing := false, error := none }) ∧
    (∀ r, l.get? k = some r →
      (handleApplyToAll svc l).1.get? k =
        some { r with isProcessing := false, error := some msg }) := by
  rw [handleApplyToAll_eq]
  refine ⟨rfl, ?_, ?_, ?_⟩
  · have hlen : ∀ n l0, (batchAux svc n l0 : List ImageState).length = l0.length := by
      intro n
      induction n with
      | zero => intro l0; simp [batchAux]
      | succ n ih =>
        intro l0
        rw [batchAux_succ, processImage_eq_updateAt, updateAt_length, ih]
    exact hlen _ _
  · intro i r hi hr
    have hilt : i < l.length := by
      rcases List.get?_eq_some.mp hr with ⟨h, _⟩
      exact h
    obtain ⟨b, hb⟩ := hsucc i hilt hi
    refine ⟨b, ?_⟩
    rw [batchAux_get?, if_pos hilt, hr, hb]
    have hmem : r ∈ l := List.get?_mem hr
    have hcur : r.historyIndex + 1 = r.history.length := hend r hmem
    have htake : r.history.take (r.historyIndex + 1) = r.history :=
      List.take_of_length_le (by omega)
    have hstep : recordStep (Except.ok b) r =
        { r with history := r.history ++ [b],
                 historyIndex := r.history.length,
                 isProcessing := false, error := none } := by
      simp [recordStep, htake]
    simp [hstep]
  · intro r hr
    rw [batchAux_get?, if_pos hk, hr, hfail]
    rfl

theorem applyToAll_isolated_failure_witness :
    (handleApplyToAll
        (fun i => if i = 1 then Except.error ("boom") else Except.ok 7)
        [freshRecord ("a") ("a") 0, freshRecord ("b") ("b") 1,
         freshRecord ("c") ("c") 2]).2 = List.range 3 ∧
    (∃ b, (handleApplyToAll
        (fun i => if i = 1 then Except.error ("boom") else Except.ok 7)
        [freshRecord ("a") ("a") 0, freshRecord ("b") ("b") 1,
         freshRecord ("c") ("c") 2]).1.get? 0 =
      some { freshRecord ("a") ("a") 0 with
              history := (freshRecord ("a") ("a") 0).history ++ [b],
              historyIndex := (freshRecord ("a") ("a") 0).history.length,
              isProcessing := false, error := none }) ∧
    (handleApplyToAll
        (fun i => if i = 1 then Except.error ("boom") else Except.ok 7)
        [freshRecord ("a") ("a") 0, freshRecord ("b") ("b") 1,
         freshRecord ("c") ("c") 2]).1.get? 1 =
      some { freshRecord ("b") ("b") 1 with
              isProcessing := false, error := some ("boom") } := by
  have h := applyToAll_isolated_failure
    [freshRecord ("a") ("a") 0, freshRecord ("b") ("b") 1, freshRecord ("c") ("c") 2]
    (fun i => if i = 1 then Except.error ("boom") else Except.ok 7) 1 "boom"
    (by decide) (by decide) rfl
    (fun i hi hne => ⟨7, by simp [hne]⟩)
  exact ⟨h.1, h.2.2.1 0 (freshRecord ("a") ("a") 0) (by decide) rfl,
         h.2.2.2 (freshRecord ("b") ("b") 1) rfl⟩

theorem undo_redo_boundary_and_step_witness :
    currentRecord
        { imageList := [⟨"a", [0, 1], 1, false, none, "a"⟩],
          currentImageIndex := 0, prompt := "", isLoading := false,
          globalError := none, editHotspot := none, displayHotspot := none,
          isComparing := false, sliderPosition := 50, scale := 1,
          translate := (0, 0), crop := none, completedCrop := none } =
      some ⟨"a", [0, 1], 1, false, none, "a"⟩ ∧
    currentRecord (handleUndoA
        { imageList := [⟨"a", [0, 1], 1, false, none, "a"⟩],
          currentImageIndex := 0, prompt := "", isLoading := false,
          globalError := none, editHotspot := none, displayHotspot := none,
          isComparing := false, sliderPosition := 50, scale := 1,
          translate := (0, 0), crop := none, completedCrop := none }) =
      some ⟨"a", [0, 1], 0, false, none, "a"⟩ := by
  refine ⟨rfl, ?_⟩
  exact ((undo_redo_boundary_and_step
    { imageList := [⟨"a", [0, 1], 1, false, none, "a"⟩],
      currentImageIndex := 0, prompt := "", isLoading := false,
      globalError := none, editHotspot := none, displayHotspot := none,
      isComparing := false, sliderPosition := 50, scale := 1,
      translate := (0, 0), crop := none, completedCrop := none }
    ⟨"a", [0, 1], 1, false, none, "a"⟩ rfl).2.2.1 (by decide)).1

/-- Claim C5, counterexample: A single-image edit failure does not replace the
targeted record: its `error` field stays `null` while the failure message
lands in the shared `globalError` state instead. -/
theorem single_failure_leaves_record_error_null :
    ((handleGenerate (Except.error ("boom"))
        { imageList := [⟨"a", [0], 0, false, none, "a"⟩],
          currentImageIndex := 0, prompt := "p", isLoading := false,
          globalError := none, editHotspot := some (1, 1),
          displayHotspot := some (1, 1), isComparing := false,
          sliderPosition := 50, scale := 1, translate := (0, 0),
          crop := none, completedCrop := none }).imageList.get? 0).map
        (fun r => r.error) = some none ∧
    (handleGenerate (Except.error ("boom"))
        { imageList := [⟨"a", [0], 0, false, none, "a"⟩],
          currentImageIndex := 0, prompt := "p", isLoading := false,
          globalError := none, editHotspot := some (1, 1),
          displayHotspot := some (1, 1), isComparing := false,
          sliderPosition := 50, scale := 1, translate := (0, 0),
          crop := none, completedCrop := none }).globalError =
      some ("Failed to generate the image. boom") := by
  constructor <;> rfl

/-- Claim C5, amended: A single-image edit failure is caught inside the
dispatcher (the state transition is total, so no exception reaches the
caller): the image list — hence the targeted record, its history, its
`error` and `isProcessing` fields — is left unchanged, the failure message
is stored in the shared `globalError` state prefixed with
`Failed to generate the image.`, and `isLoading` is cleared. -/
theorem single_failure_is_global_and_caught (s : AppState) (msg : String)
    (hg : generateGuardsPass s) :
    (handleGenerate (Except.error msg) s).imageList = s.imageList ∧
    (handleGenerate (Except.error msg) s).globalError =
      some ("Failed to generate the image. " ++ msg) ∧
    (handleGenerate (Except.error msg) s).isLoading = false := by
  obtain ⟨hcur, hp, hh⟩ := hg
  rcases hcb : currentBlob s with _ | b
  · rw [hcb] at hcur
    simp at hcur
  · rcases hhs : s.editHotspot with _ | pt
    · rw [hhs] at hh
      simp at hh
    · simp [handleGenerate, hcb, hp, hhs]

theorem single_failure_is_global_and_caught_witness :
    generateGuardsPass
      { imageList := [⟨"a", [0], 0, false, none, "a"⟩],
        currentImageIndex := 0, prompt := "p", isLoading := false,
        globalError := none, editHotspot := some (1, 1),
        displayHotspot := some (1, 1), isComparing := false,
        sliderPosition := 50, scale := 1, translate := (0, 0),
        crop := none, completedCrop := none } ∧
    (handleGenerate (Except.error ("x"))
      { imageList := [⟨"a", [0], 0, false, none, "a"⟩],
        currentImageIndex := 0, prompt := "p", isLoading := false,
        globalError := none, editHotspot := some (1, 1),
        displayHotspot := some (1, 1), isComparing := false,
        sliderPosition := 50, scale := 1, translate := (0, 0),
        crop := none, completedCrop := none }).imageList =
      [⟨"a", [0], 0, false, none, "a"⟩] := by
  refine ⟨⟨by rfl, by decide, by rfl⟩, ?_⟩
  exact (single_failure_is_global_and_caught _ ("x") ⟨by rfl, by decide, by rfl⟩).1

/-- Claim C6, counterexample: A record whose `error` field is non-null keeps
that stale error across a successful single-image edit: the success path
commits through `addImageToHistory`, which never touches the `error`
field. -/
theorem stale_error_survives_single_success :
    ((handleGenerate (Except.ok 5)
        { imageList := [⟨"a", [0], 0, false, some ("old"), "a"⟩],
          currentImageIndex := 0, prompt := "p", isLoading := false,
          globalError := none, editHotspot := some (1, 1),
          displayHotspot := some (1, 1), isComparing := false,
          sliderPosition := 50, scale := 1, translate := (0, 0),
          crop := none, completedCrop := none }).imageList.get? 0).map
        (fun r => r.error) = some (some ("old")) := by
  rfl

/-- Claim C6, amended: A record's last-error message is cleared by the next
successful *batch* operation on it (`processImage` resets `error` to null
before committing); a successful *single-image* edit commits through
`addImageToHistory` and leaves the record's `error` field unchanged. -/
theorem error_cleared_by_batch_success_only (l : List ImageState) (i : Nat)
    (r : ImageState) (b : Blob) (hr : l.get? i = some r) :
    ((processImage (Except.ok b) l i).get? i).map (fun x => x.error) =
      some none ∧
    ((addImageToHistory b i l).get? i).map (fun x => x.error) =
      some r.error := by
  constructor
  · rw [processImage_eq_updateAt, updateAt_get?_self, hr]
    rfl
  · rw [addImageToHistory, updateAt_get?_self, hr]
    rfl

theorem error_cleared_by_batch_success_only_witness :
    ([(⟨"a", [0], 0, false, some ("old"), "a"⟩ : ImageState)].get? 0 =
      some ⟨"a", [0], 0, false, some ("old"), "a"⟩) ∧
    ((processImage (Except.ok 5)
        [⟨"a", [0], 0, false, some ("old"), "a"⟩] 0).get? 0).map
      (fun x => x.error) = some none := by
  refine ⟨rfl, ?_⟩
  exact (error_cleared_by_batch_success_only
    [⟨"a", [0], 0, false, some ("old"), "a"⟩] 0
    ⟨"a", [0], 0, false, some ("old"), "a"⟩ 5 rfl).1

/-- Claim C7, counterexample: Selecting with an out-of-bounds index does not
fail with any `IndexError` and does not leave the active index unchanged:
the index is stored as given (here index 5 on a 2-image session, moving the
active index from 0 to 5). -/
theorem select_out_of_bounds_sets_index :
    (setCurrentImageIndexA 5
        { imageList := [freshRecord ("a") ("a") 0, freshRecord ("b") ("b") 1],
          currentImageIndex := 0, prompt := "", isLoading := false,
          globalError := none, editHotspot := none, displayHotspot := none,
          isComparing := false, sliderPosition := 50, scale := 1,
          translate := (0, 0), crop := none,
          completedCrop := none }).currentImageIndex = 5 ∧
    (setCurrentImageIndexA 5
        { imageList := [freshRecord ("a") ("a") 0, freshRecord ("b") ("b") 1],
          currentImageIndex := 0, prompt := "", isLoading := false,
          globalError := none, editHotspot := none, displayHotspot := none,
          isComparing := false, sliderPosition := 50, scale := 1,
          translate := (0, 0), crop := none,
          completedCrop := none }).imageList.length = 2 := by
  constructor <;> rfl

/-- Claim C7, amended: Selection stores the given index unconditionally (an
in-bounds index sets `activeIndex` to that value, and an out-of-bounds index
is stored just the same — there is no `IndexError`); the UI's own selection
entry points cannot produce an out-of-bounds index, since keyboard
navigation wraps the index modulo the list length. -/
theorem select_unconditional_and_ui_in_bounds (s : AppState) (i : Nat) :
    (setCurrentImageIndexA i s).currentImageIndex = i ∧
    (1 < s.imageList.length →
      (keyboardArrowRight s).currentImageIndex < s.imageList.length ∧
      (keyboardArrowLeft s).currentImageIndex < s.imageList.length) := by
  refine ⟨rfl, ?_⟩
  intro hlen
  have hpos : 0 < s.imageList.length := by omega
  constructor
  · simp only [keyboardArrowRight]
    rw [if_neg (by omega)]
    exact Nat.mod_lt _ hpos
  · simp only [keyboardArrowLeft]
    rw [if_neg (by omega)]
    exact Nat.mod_lt _ hpos

theorem select_unconditional_and_ui_in_bounds_witness :
    (1 <
      ({ imageList := [freshRecord ("a") ("a") 0, freshRecord ("b") ("b") 1],
         currentImageIndex := 1, prompt := "", isLoading := false,
         globalError := none, editHotspot := none, displayHotspot := none,
         isComparing := false, sliderPosition := 50, scale := 1,
         translate := (0, 0), crop := none,
         completedCrop := none } : AppState).imageList.length) ∧
    (keyboardArrowRight
        { imageList := [freshRecord ("a") ("a") 0, freshRecord ("b") ("b") 1],
          currentImageIndex := 1, prompt := "", isLoading := false,
          globalError := none, editHotspot := none, displayHotspot := none,
          isComparing := false, sliderPosition := 50, scale := 1,
          translate := (0, 0), crop := none,
          completedCrop := none }).currentImageIndex <
      ({ imageList := [freshRecord ("a") ("a") 0, freshRecord ("b") ("b") 1],
         currentImageIndex := 1, prompt := "", isLoading := false,
         globalError := none, editHotspot := none, displayHotspot := none,
         isComparing := false, sliderPosition := 50, scale := 1,
         translate := (0, 0), crop := none,
         completedCrop := none } : AppState).imageList.length := by
  refine ⟨by decide, ?_⟩
  exact ((select_unconditional_and_ui_in_bounds _ 0).2 (by decide)).1

theorem clampScale_mem (x : ℚ) : 2 / 10 ≤ clampScale x ∧ clampScale x ≤ 5 := by
  unfold clampScale
  constructor
  · exact le_max_left _ _
  · exact max_le (by norm_num) (min_le_right _ _)

theorem pivot_formula (ns pv tv sc : ℚ) (hsc : sc ≠ 0) :
    (pv - (pv - tv) * (ns / sc)) + ns * ((pv - tv) / sc) = pv := by
  field_simp
  ring

/-- Claim C8: Both zoom paths clamp the new scale to `[0.2, 5]` and keep the
pivot point visually fixed: the image point that was rendered under the
pivot before the zoom (`(pivot - translate) / oldScale`) is rendered at the
pivot again by the new transform, exactly (over exact rational
arithmetic). -/
theorem zoom_at_pivot_fixed (zoomIn : Bool) (p t : ℚ × ℚ) (sc : ℚ)
    (h1 : 2 / 10 ≤ sc) (h2 : sc ≤ 5) :
    (2 / 10 ≤ (handleZoom zoomIn p sc t).1 ∧
     (handleZoom zoomIn p sc t).1 ≤ 5 ∧
     (handleZoom zoomIn p sc t).2.1 +
       (handleZoom zoomIn p sc t).1 * ((p.1 - t.1) / sc) = p.1 ∧
     (handleZoom zoomIn p sc t).2.2 +
       (handleZoom zoomIn p sc t).1 * ((p.2 - t.2) / sc) = p.2) ∧
    (2 / 10 ≤ (handleWheel ("retouch") false zoomIn p sc t).1 ∧
     (handleWheel ("retouch") false zoomIn p sc t).1 ≤ 5 ∧
     (handleWheel ("retouch") false zoomIn p sc t).2.1 +
       (handleWheel ("retouch") false zoomIn p sc t).1 * ((p.1 - t.1) / sc) = p.1 ∧
     (handleWheel ("retouch") false zoomIn p sc t).2.2 +
       (handleWheel ("retouch") false zoomIn p sc t).1 * ((p.2 - t.2) / sc) = p.2) := by
  have hsc : sc ≠ 0 := by
    intro h
    rw [h] at h1
    norm_num at h1
  constructor
  · exact ⟨(clampScale_mem _).1, (clampScale_mem _).2,
      pivot_formula (clampScale (if zoomIn then sc * (12 / 10) else sc / (12 / 10))) p.1 t.1 sc hsc,
      pivot_formula (clampScale (if zoomIn then sc * (12 / 10) else sc / (12 / 10))) p.2 t.2 sc hsc⟩
  · have hguard : ¬("retouch" = "crop" ∨ "retouch" = "resize" ∨ false = true) := by
      decide
    have hwheel : handleWheel ("retouch") false zoomIn p sc t =
        (clampScale (if zoomIn then sc * (11 / 10) else sc / (11 / 10)),
         (p.1 - (p.1 - t.1) *
            (clampScale (if zoomIn then sc * (11 / 10) else sc / (11 / 10)) / sc),
          p.2 - (p.2 - t.2) *
            (clampScale (if zoomIn then sc * (11 / 10) else sc / (11 / 10)) / sc))) := by
      rw [handleWheel, if_neg hguard]
    rw [hwheel]
    exact ⟨(clampScale_mem _).1, (clampScale_mem _).2,
      pivot_formula (clampScale (if zoomIn then sc * (11 / 10) else sc / (11 / 10))) p.1 t.1 sc hsc,
      pivot_formula (clampScale (if zoomIn then sc * (11 / 10) else sc / (11 / 10))) p.2 t.2 sc hsc⟩

theorem zoom_at_pivot_fixed_witness :
    ((2 : ℚ) / 10 ≤ 1 ∧ (1 : ℚ) ≤ 5) ∧
    (handleZoom true (100, 50) 1 (0, 0)).2.1 +
      (handleZoom true (100, 50) 1 (0, 0)).1 * ((100 - 0) / 1) = 100 := by
  constructor
  · constructor <;> norm_num
  · exact (zoom_at_pivot_fixed true (100, 50) (0, 0) 1
      (by norm_num) (by norm_num)).1.2.2.1

/-- Claim C9: For a 1000x500 natural image rendered in a 400x400 element
(`contain` letterboxing: visible area 400x200 at offset `(0, 100)`), a click
at element-relative `(200, 150)` maps to natural-pixel coordinates
`(500, 125)`; and any click falling in the top or bottom letterbox bar
(outside the visible image area) yields no hotspot. -/
theorem hotspot_mapping_letterboxed :
    computeHotspot 1000 500 400 400 200 150 = some (500, 125) ∧
    ∀ x y : ℚ, (y < 100 ∨ y > 300) →
      computeHotspot 1000 500 400 400 x y = none := by
  constructor
  · norm_num [computeHotspot]
  · intro x y hy
    rw [computeHotspot]
    norm_num
    intro h1 h2 h3 h4
    exfalso
    rcases hy with hy | hy <;> linarith

theorem hotspot_mapping_letterboxed_witness :
    ((50 : ℚ) < 100 ∨ (50 : ℚ) > 300) ∧
    computeHotspot 1000 500 400 400 30 50 = none := by
  refine ⟨Or.inl (by norm_num), ?_⟩
  exact hotspot_mapping_letterboxed.2 30 50 (Or.inl (by norm_num))

theorem currentRecord_undo (s : AppState) (r : ImageState)
    (hr : currentRecord s = some r) (hpos : 0 < r.historyIndex) :
    currentRecord (handleUndoA s) =
      some { r with historyIndex := r.historyIndex - 1 } := by
  have hr' : s.imageList.get? s.currentImageIndex = some r := hr
  have hcan : canUndoA s = true := by simp [canUndoA, hr, hpos]
  have hidx : (handleUndoA s).currentImageIndex = s.currentImageIndex := by
    simp [handleUndoA, hcan]
  have hs' : (handleUndoA s).imageList = updateAt s.currentImageIndex
      (fun img => { img with historyIndex := img.historyIndex - 1 })
      s.imageList := by
    simp [handleUndoA, hcan]
  unfold currentRecord
  rw [hidx, hs', updateAt_get?_self, hr']
  rfl

theorem currentRecord_redo (s : AppState) (r : ImageState)
    (hr : currentRecord s = some r)
    (hlt : r.historyIndex < r.history.length - 1) :
    currentRecord (handleRedoA s) =
      some { r with historyIndex := r.historyIndex + 1 } := by
  have hr' : s.imageList.get? s.currentImageIndex = some r := hr
  have hcan : canRedoA s = true := by simp [canRedoA, hr, hlt]
  have hidx : (handleRedoA s).currentImageIndex = s.currentImageIndex := by
    simp [handleRedoA, hcan]
  have hs' : (handleRedoA s).imageList = updateAt s.currentImageIndex
      (fun img => { img with historyIndex := img.historyIndex + 1 })
      s.imageList := by
    simp [handleRedoA, hcan]
  unfold currentRecord
  rw [hidx, hs', updateAt_get?_self, hr']
  rfl

theorem currentRecord_commitEditA (b : Blob) (s : AppState) (r : ImageState)
    (hr : currentRecord s = some r) :
    currentRecord (commitEditA b s) = some (appendRecord b r) := by
  have hr' : s.imageList.get? s.currentImageIndex = some r := hr
  unfold currentRecord commitEditA addImageToHistory
  rw [show ({ s with imageList := updateAt s.currentImageIndex (appendRecord b) s.imageList, crop := none, completedCrop := none } : AppState).currentImageIndex = s.currentImageIndex from rfl]
  rw [show ({ s with imageList := updateAt s.currentImageIndex (appendRecord b) s.imageList, crop := none, completedCrop := none } : AppState).imageList = updateAt s.currentImageIndex (appendRecord b) s.imageList from rfl]
  rw [updateAt_get?_self, hr']
  rfl

theorem currentBlob_appendRecord (b : Blob) (r : ImageState) :
    (appendRecord b r).history.get? (appendRecord b r).historyIndex =
      some b := by
  simp only [appendRecord]
  have hlen : (r.history.take (r.historyIndex + 1) ++ [b]).length - 1 =
      (r.history.take (r.historyIndex + 1)).length := by
    simp
  rw [hlen]
  exact List.get?_concat_length _ _

/-- Claim C10: In the shipped code the interaction state is reset whenever the
active record's displayed blob changes for any reason, not only when the
image or tool is switched: after an undo, after a redo, and after a
successful edit append (whenever the newly displayed blob differs from the
previous one), the effect keyed on `currentImage` sets `scale = 1`,
`translate = (0, 0)`, clears both hotspots, leaves compare mode, and clears
the crop selection. -/
theorem viewport_resets_on_displayed_blob_change (s : AppState)
    (r : ImageState) (hr : currentRecord s = some r) :
    (0 < r.historyIndex →
      r.history.get? (r.historyIndex - 1) ≠ r.history.get? r.historyIndex →
      interactionIsReset (imageSwapEffect (currentBlob s) (handleUndoA s))) ∧
    (r.historyIndex < r.history.length - 1 →
      r.history.get? (r.historyIndex + 1) ≠ r.history.get? r.historyIndex →
      interactionIsReset (imageSwapEffect (currentBlob s) (handleRedoA s))) ∧
    (∀ b, some b ≠ currentBlob s →
      interactionIsReset (imageSwapEffect (currentBlob s) (commitEditA b s))) := by
  have hcb : currentBlob s = r.history.get? r.historyIndex := by
    simp [currentBlob, hr]
  refine ⟨?_, ?_, ?_⟩
  · intro hpos hne
    have h1 := currentRecord_undo s r hr hpos
    have h2 : currentBlob (handleUndoA s) =
        r.history.get? (r.historyIndex - 1) := by
      simp [currentBlob, h1]
    rw [imageSwapEffect, h2, hcb, if_neg hne]
    exact ⟨rfl, rfl, rfl, rfl, rfl, rfl, rfl⟩
  · intro hlt hne
    have h1 := currentRecord_redo s r hr hlt
    have h2 : currentBlob (handleRedoA s) =
        r.history.get? (r.historyIndex + 1) := by
      simp [currentBlob, h1]
    rw [imageSwapEffect, h2, hcb, if_neg hne]
    exact ⟨rfl, rfl, rfl, rfl, rfl, rfl, rfl⟩
  · intro b hne
    have h1 := currentRecord_commitEditA b s r hr
    have h2 : currentBlob (commitEditA b s) = some b := by
      unfold currentBlob
      rw [h1]
      exact currentBlob_appendRecord b r
    rw [imageSwapEffect, h2, hcb]
    rw [hcb] at hne
    rw [if_neg hne]
    exact ⟨rfl, rfl, rfl, rfl, rfl, rfl, rfl⟩

theorem viewport_resets_on_displayed_blob_change_witness :
    (0 < (⟨"a", [0, 1], 1, false, none, "a"⟩ : ImageState).historyIndex) ∧
    interactionIsReset (imageSwapEffect
      (currentBlob
        { imageList := [⟨"a", [0, 1], 1, false, none, "a"⟩],
          currentImageIndex := 0, prompt := "", isLoading := false,
          globalError := none, editHotspot := some (3, 4),
          displayHotspot := some (3, 4), isComparing := true,
          sliderPosition := 50, scale := 3, translate := (7, 8),
          crop := none, completedCrop := none })
      (handleUndoA
        { imageList := [⟨"a", [0, 1], 1, false, none, "a"⟩],
          currentImageIndex := 0, prompt := "", isLoading := false,
          globalError := none, editHotspot := some (3, 4),
          displayHotspot := some (3, 4), isComparing := true,
          sliderPosition := 50, scale := 3, translate := (7, 8),
          crop := none, completedCrop := none })) := by
  refine ⟨by decide, ?_⟩
  exact (viewport_resets_on_displayed_blob_change
    { imageList := [⟨"a", [0, 1], 1, false, none, "a"⟩],
      currentImageIndex := 0, prompt := "", isLoading := false,
      globalError := none, editHotspot := some (3, 4),
      displayHotspot := some (3, 4), isComparing := true,
      sliderPosition := 50, scale := 3, translate := (7, 8),
      crop := none, completedCrop := none }
    ⟨"a", [0, 1], 1, false, none, "a"⟩ rfl).1 (by decide) (by decide)
